import Mathlib

/-!
Shallow embedding of `scripts/build.py`, the build-orchestration script of
this repository.  The script's `main` submits a fixed set of task bodies to a
`ThreadPoolExecutor(max_workers=8)`, awaits `build_types` before the
api-extractor wave, optionally runs the api-extractor wave sequentially when
the environment variable `NO_CONCURRENT_CONVEX_NPM_BUILD` is set, and drains
the remaining futures with `as_completed`, converting
`subprocess.CalledProcessError` into `sys.exit(1)`.

Task bodies are opaque external `npm` invocations; we model each body's
outcome as a parameter `body : Task → Outcome`.  The arrival order of results
in `as_completed` is thread-scheduling dependent; we model it as a parameter
`order : List Task`, constrained in theorems to be a permutation of the
futures actually handed to `as_completed`.
-/

namespace Build

/-- The six package names iterated over in `main`'s api-extractor loop
(`for pkg in ["browser", "server", "react", "values", "react-auth0",
"react-clerk"]`). -/
inductive Pkg
  | browser
  | server
  | react
  | values
  | reactAuth0
  | reactClerk
deriving DecidableEq, Repr

/-- The tasks of the script: the seven module-level build functions, with
`build_api_extractor` parameterized by its `pkg` argument. -/
inductive Task
  | build_types
  | build_cjs
  | build_esm
  | build_browser_script_tag
  | build_react_script_tag
  | build_standalone_cli
  | build_api_extractor : Pkg → Task
deriving DecidableEq, Repr

/-- Outcome of one opaque task body, i.e. one
`subprocess.run([NPM, ...], check=True)` call: the external process exits 0
(`success`), exits nonzero so that `check=True` raises
`subprocess.CalledProcessError` (`calledProcessError`), or the call raises any
other exception, e.g. `OSError` when the executable is missing
(`otherException`). -/
inductive Outcome
  | success
  | calledProcessError
  | otherException
deriving DecidableEq, Repr

/-- `ThreadPoolExecutor(max_workers=8)` in `main`. -/
def max_workers : Nat := 8

/-- The five no-prerequisite tasks appended to `children` before the
`e1.result()` join, in submission order. -/
def wave1Children : List Task :=
  [Task.build_cjs, Task.build_esm, Task.build_browser_script_tag,
   Task.build_react_script_tag, Task.build_standalone_cli]

/-- The `pkg` list of `main`'s api-extractor loop, in registration order. -/
def pkgs : List Pkg :=
  [Pkg.browser, Pkg.server, Pkg.react, Pkg.values, Pkg.reactAuth0,
   Pkg.reactClerk]

/-- The api-extractor tasks, in registration order. -/
def apiTasks : List Task := pkgs.map Task.build_api_extractor

/-- All tasks declared by `main`: `build_types` (submitted as `e1`), the five
wave-1 children, and the six api-extractor tasks. -/
def allTasks : List Task := Task.build_types :: wave1Children ++ apiTasks

/-- How one invocation of `main` (hence the python process) ends:
`exitCode n` for `sys.exit(n)` or a normal return from `main` (code 0);
`uncaughtCPE t` for a `subprocess.CalledProcessError` raised by task `t`
propagating uncaught out of `main` (python prints its traceback);
`uncaughtOther t` for any other exception raised by task `t` propagating
uncaught out of `main`. -/
inductive ExitRes
  | exitCode : Nat → ExitRes
  | uncaughtCPE : Task → ExitRes
  | uncaughtOther : Task → ExitRes
deriving DecidableEq, Repr

/-- The numeric status the operating system observes: `sys.exit(n)` yields
`n`; an uncaught exception makes the interpreter exit with status 1. -/
def ExitRes.processStatus : ExitRes → Nat
  | .exitCode n => n
  | .uncaughtCPE _ => 1
  | .uncaughtOther _ => 1

/-- Observable trace of one invocation of `main`:
`submitted` — the tasks handed to `pool.submit`, in submission order;
`invoked`  — the task bodies that actually run, in start order for the
             sequential direct calls (pool-submitted bodies all run to
             completion: the pool never cancels, and pending work items are
             still executed during interpreter shutdown);
`awaited`  — the futures whose `.result()` `main` calls, in await order;
`exit`     — how the invocation ends;
`output`   — lines printed by the orchestrator itself (task bodies write to
             their own streams; `main` contains no print call). -/
structure RunResult where
  submitted : List Task
  invoked : List Task
  awaited : List Task
  exit : ExitRes
  output : List String
deriving DecidableEq, Repr

/-- The sequential fallback path of the api-extractor loop: when
`NO_CONCURRENT_CONVEX_NPM_BUILD` is set, `build_api_extractor(pkg)` is called
directly, outside any try/except, so the first non-success outcome propagates
out of `main` and later packages never run.  Returns the bodies invoked and
the escaping exception, if any. -/
def runSequentialApis (body : Task → Outcome) : List Pkg → List Task × Option ExitRes
  | [] => ([], none)
  | p :: rest =>
    match body (Task.build_api_extractor p) with
    | .success =>
      let r := runSequentialApis body rest
      (Task.build_api_extractor p :: r.1, r.2)
    | .calledProcessError =>
      ([Task.build_api_extractor p],
       some (ExitRes.uncaughtCPE (Task.build_api_extractor p)))
    | .otherException =>
      ([Task.build_api_extractor p],
       some (ExitRes.uncaughtOther (Task.build_api_extractor p)))

/-- The final `for child in as_completed(children)` loop of `main`:
futures are inspected in arrival order; `child.result()` re-raises the body's
exception; `subprocess.CalledProcessError` triggers `sys.exit(1)` immediately;
any other exception propagates uncaught; the loop ends normally otherwise.
Returns the futures awaited (in order) and how the loop ends. -/
def collectLoop (body : Task → Outcome) : List Task → List Task × ExitRes
  | [] => ([], ExitRes.exitCode 0)
  | t :: rest =>
    match body t with
    | .success =>
      let r := collectLoop body rest
      (t :: r.1, r.2)
    | .calledProcessError => ([t], ExitRes.exitCode 1)
    | .otherException => ([t], ExitRes.uncaughtOther t)

/-- The futures handed to `as_completed`: the five wave-1 children, plus the
six api-extractor futures unless `NO_CONCURRENT_CONVEX_NPM_BUILD` is set. -/
def childrenList (noConc : Bool) : List Task :=
  if noConc then wave1Children else wave1Children ++ apiTasks

/-- One invocation of `main`, as a function of the environment toggle
`noConc` (`NO_CONCURRENT_CONVEX_NPM_BUILD` set), the opaque body outcomes, and
the arrival order of `as_completed`.  Mirrors `main` line by line:
submit `e1 = build_types` and the five children; `try: e1.result() except
CalledProcessError: sys.exit(1)` (any other exception is uncaught); then the
api-extractor loop (sequential direct calls, or six more submissions); then
the `as_completed` drain. -/
def mainRun (noConc : Bool) (body : Task → Outcome) (order : List Task) :
    RunResult :=
  match body Task.build_types with
  | .calledProcessError =>
    { submitted := Task.build_types :: wave1Children
      invoked := Task.build_types :: wave1Children
      awaited := [Task.build_types]
      exit := ExitRes.exitCode 1
      output := [] }
  | .otherException =>
    { submitted := Task.build_types :: wave1Children
      invoked := Task.build_types :: wave1Children
      awaited := [Task.build_types]
      exit := ExitRes.uncaughtOther Task.build_types
      output := [] }
  | .success =>
    if noConc then
      match runSequentialApis body pkgs with
      | (ran, some e) =>
        { submitted := Task.build_types :: wave1Children
          invoked := (Task.build_types :: wave1Children) ++ ran
          awaited := [Task.build_types]
          exit := e
          output := [] }
      | (ran, none) =>
        let c := collectLoop body order
        { submitted := Task.build_types :: wave1Children
          invoked := (Task.build_types :: wave1Children) ++ ran
          awaited := Task.build_types :: c.1
          exit := c.2
          output := [] }
    else
      let c := collectLoop body order
      { submitted := (Task.build_types :: wave1Children) ++ apiTasks
        invoked := (Task.build_types :: wave1Children) ++ apiTasks
        awaited := Task.build_types :: c.1
        exit := c.2
        output := [] }

/-- Body assignment where every external command succeeds. -/
def allSuccessBody : Task → Outcome := fun _ => Outcome.success

/-- Body assignment where `build_types` exits nonzero and everything else
succeeds. -/
def typesFailBody : Task → Outcome
  | Task.build_types => Outcome.calledProcessError
  | _ => Outcome.success

/-- Body assignment where `build_cjs` exits nonzero and everything else
succeeds. -/
def cjsFailBody : Task → Outcome
  | Task.build_cjs => Outcome.calledProcessError
  | _ => Outcome.success

/-- Body assignment where `build_esm` raises a non-`CalledProcessError`
exception and everything else succeeds. -/
def esmRaisesBody : Task → Outcome
  | Task.build_esm => Outcome.otherException
  | _ => Outcome.success

/-- Body assignment where the api-extractor run for `browser` exits nonzero
and everything else succeeds. -/
def apiBrowserFailBody : Task → Outcome
  | Task.build_api_extractor Pkg.browser => Outcome.calledProcessError
  | _ => Outcome.success

/-! Helper lemmas about the two loops and the shape of `mainRun`. -/

theorem collectLoop_cons_success (body : Task → Outcome) (t : Task)
    (rest : List Task) (h : body t = Outcome.success) :
    collectLoop body (t :: rest) =
      (t :: (collectLoop body rest).1, (collectLoop body rest).2) := by
  simp only [collectLoop, h]

theorem collectLoop_cons_cpe (body : Task → Outcome) (t : Task)
    (rest : List Task) (h : body t = Outcome.calledProcessError) :
    collectLoop body (t :: rest) = ([t], ExitRes.exitCode 1) := by
  simp only [collectLoop, h]

theorem collectLoop_cons_other (body : Task → Outcome) (t : Task)
    (rest : List Task) (h : body t = Outcome.otherException) :
    collectLoop body (t :: rest) = ([t], ExitRes.uncaughtOther t) := by
  simp only [collectLoop, h]

theorem collectLoop_all_success (body : Task → Outcome) (l : List Task)
    (h : ∀ t ∈ l, body t = Outcome.success) :
    collectLoop body l = (l, ExitRes.exitCode 0) := by
  induction l with
  | nil => rfl
  | cons t rest ih =>
    rw [collectLoop_cons_success body t rest (h t (by simp)),
      ih (fun u hu => h u (by simp [hu]))]

theorem collectLoop_append_first_cpe (body : Task → Outcome)
    (pre post : List Task) (t : Task)
    (hpre : ∀ u ∈ pre, body u = Outcome.success)
    (ht : body t = Outcome.calledProcessError) :
    collectLoop body (pre ++ t :: post) = (pre ++ [t], ExitRes.exitCode 1) := by
  induction pre with
  | nil => simpa using collectLoop_cons_cpe body t post ht
  | cons u rest ih =>
    rw [List.cons_append,
      collectLoop_cons_success body u (rest ++ t :: post) (hpre u (by simp)),
      ih (fun v hv => hpre v (by simp [hv]))]
    rfl

theorem collectLoop_append_first_other (body : Task → Outcome)
    (pre post : List Task) (t : Task)
    (hpre : ∀ u ∈ pre, body u = Outcome.success)
    (ht : body t = Outcome.otherException) :
    collectLoop body (pre ++ t :: post) =
      (pre ++ [t], ExitRes.uncaughtOther t) := by
  induction pre with
  | nil => simpa using collectLoop_cons_other body t post ht
  | cons u rest ih =>
    rw [List.cons_append,
      collectLoop_cons_success body u (rest ++ t :: post) (hpre u (by simp)),
      ih (fun v hv => hpre v (by simp [hv]))]
    rfl

theorem collectLoop_fst_front (body : Task → Outcome) (l : List Task) :
    (collectLoop body l).1 <+: l := by
  induction l with
  | nil => exact List.prefix_refl _
  | cons t rest ih =>
    cases h : body t with
    | success =>
      rw [collectLoop_cons_success body t rest h]
      exact (List.prefix_cons_inj t).mpr ih
    | calledProcessError =>
      rw [collectLoop_cons_cpe body t rest h]
      exact ⟨rest, rfl⟩
    | otherException =>
      rw [collectLoop_cons_other body t rest h]
      exact ⟨rest, rfl⟩

theorem collectLoop_exit0_iff (body : Task → Outcome) (l : List Task) :
    (collectLoop body l).2 = ExitRes.exitCode 0 ↔
      ∀ t ∈ l, body t = Outcome.success := by
  induction l with
  | nil => simp [collectLoop]
  | cons t rest ih =>
    cases h : body t with
    | success =>
      rw [collectLoop_cons_success body t rest h]
      simpa [h] using ih
    | calledProcessError =>
      rw [collectLoop_cons_cpe body t rest h]
      simp [h]
    | otherException =>
      rw [collectLoop_cons_other body t rest h]
      simp [h]

theorem collectLoop_exit0_fst (body : Task → Outcome) (l : List Task)
    (h : (collectLoop body l).2 = ExitRes.exitCode 0) :
    (collectLoop body l).1 = l := by
  induction l with
  | nil => rfl
  | cons t rest ih =>
    cases hb : body t with
    | success =>
      rw [collectLoop_cons_success body t rest hb] at h ⊢
      simp only [List.cons.injEq, true_and]
      exact ih h
    | calledProcessError =>
      rw [collectLoop_cons_cpe body t rest hb] at h
      simp at h
    | otherException =>
      rw [collectLoop_cons_other body t rest hb] at h
      simp at h

theorem collectLoop_status (body : Task → Outcome) (l : List Task)
    (h : ∀ t ∈ l, body t ≠ Outcome.otherException) :
    (collectLoop body l).2 = ExitRes.exitCode 0 ∨
      (collectLoop body l).2 = ExitRes.exitCode 1 := by
  induction l with
  | nil => simp [collectLoop]
  | cons t rest ih =>
    cases hb : body t with
    | success =>
      rw [collectLoop_cons_success body t rest hb]
      exact ih (fun u hu => h u (by simp [hu]))
    | calledProcessError =>
      rw [collectLoop_cons_cpe body t rest hb]
      simp
    | otherException => exact absurd hb (h t (by simp))

theorem seq_cons_success (body : Task → Outcome) (p : Pkg) (rest : List Pkg)
    (h : body (Task.build_api_extractor p) = Outcome.success) :
    runSequentialApis body (p :: rest) =
      (Task.build_api_extractor p :: (runSequentialApis body rest).1,
       (runSequentialApis body rest).2) := by
  simp only [runSequentialApis, h]

theorem seq_cons_cpe (body : Task → Outcome) (p : Pkg) (rest : List Pkg)
    (h : body (Task.build_api_extractor p) = Outcome.calledProcessError) :
    runSequentialApis body (p :: rest) =
      ([Task.build_api_extractor p],
       some (ExitRes.uncaughtCPE (Task.build_api_extractor p))) := by
  simp only [runSequentialApis, h]

theorem seq_cons_other (body : Task → Outcome) (p : Pkg) (rest : List Pkg)
    (h : body (Task.build_api_extractor p) = Outcome.otherException) :
    runSequentialApis body (p :: rest) =
      ([Task.build_api_extractor p],
       some (ExitRes.uncaughtOther (Task.build_api_extractor p))) := by
  simp only [runSequentialApis, h]

theorem seq_all_success (body : Task → Outcome) (l : List Pkg)
    (h : ∀ p ∈ l, body (Task.build_api_extractor p) = Outcome.success) :
    runSequentialApis body l = (l.map Task.build_api_extractor, none) := by
  induction l with
  | nil => rfl
  | cons p rest ih =>
    rw [seq_cons_success body p rest (h p (by simp)),
      ih (fun q hq => h q (by simp [hq]))]
    rfl

theorem seq_none_iff (body : Task → Outcome) (l : List Pkg) :
    (runSequentialApis body l).2 = none ↔
      ∀ p ∈ l, body (Task.build_api_extractor p) = Outcome.success := by
  induction l with
  | nil => simp [runSequentialApis]
  | cons p rest ih =>
    cases h : body (Task.build_api_extractor p) with
    | success =>
      rw [seq_cons_success body p rest h]
      simpa [h] using ih
    | calledProcessError =>
      rw [seq_cons_cpe body p rest h]
      simp [h]
    | otherException =>
      rw [seq_cons_other body p rest h]
      simp [h]

theorem seq_first_cpe (body : Task → Outcome) (pre post : List Pkg) (p : Pkg)
    (hpre : ∀ q ∈ pre, body (Task.build_api_extractor q) = Outcome.success)
    (hp : body (Task.build_api_extractor p) = Outcome.calledProcessError) :
    runSequentialApis body (pre ++ p :: post) =
      (pre.map Task.build_api_extractor ++ [Task.build_api_extractor p],
       some (ExitRes.uncaughtCPE (Task.build_api_extractor p))) := by
  induction pre with
  | nil => simpa using seq_cons_cpe body p post hp
  | cons q rest ih =>
    rw [List.cons_append, seq_cons_success body q (rest ++ p :: post)
      (hpre q (by simp)), ih (fun r hr => hpre r (by simp [hr]))]
    rfl

theorem seq_fst_front (body : Task → Outcome) (l : List Pkg) :
    (runSequentialApis body l).1 <+: l.map Task.build_api_extractor := by
  induction l with
  | nil => exact List.prefix_refl _
  | cons p rest ih =>
    cases h : body (Task.build_api_extractor p) with
    | success =>
      rw [seq_cons_success body p rest h]
      exact (List.prefix_cons_inj _).mpr ih
    | calledProcessError =>
      rw [seq_cons_cpe body p rest h]
      exact ⟨rest.map Task.build_api_extractor, rfl⟩
    | otherException =>
      rw [seq_cons_other body p rest h]
      exact ⟨rest.map Task.build_api_extractor, rfl⟩

theorem seq_some_not_exit (body : Task → Outcome) (l : List Pkg) (e : ExitRes)
    (h : (runSequentialApis body l).2 = some e) :
    e.processStatus = 1 ∧ ∀ n, e ≠ ExitRes.exitCode n := by
  induction l with
  | nil => simp [runSequentialApis] at h
  | cons p rest ih =>
    cases hb : body (Task.build_api_extractor p) with
    | success =>
      rw [seq_cons_success body p rest hb] at h
      exact ih h
    | calledProcessError =>
      rw [seq_cons_cpe body p rest hb] at h
      simp only [Option.some.injEq] at h
      subst h
      exact ⟨rfl, fun n hn => by simp at hn⟩
    | otherException =>
      rw [seq_cons_other body p rest hb] at h
      simp only [Option.some.injEq] at h
      subst h
      exact ⟨rfl, fun n hn => by simp at hn⟩

theorem seq_congr (b1 b2 : Task → Outcome)
    (h : ∀ p, b1 (Task.build_api_extractor p) = b2 (Task.build_api_extractor p))
    (l : List Pkg) : runSequentialApis b1 l = runSequentialApis b2 l := by
  induction l with
  | nil => rfl
  | cons p rest ih =>
    cases hb : b2 (Task.build_api_extractor p) with
    | success =>
      rw [seq_cons_success b1 p rest ((h p).trans hb),
        seq_cons_success b2 p rest hb, ih]
    | calledProcessError =>
      rw [seq_cons_cpe b1 p rest ((h p).trans hb), seq_cons_cpe b2 p rest hb]
    | otherException =>
      rw [seq_cons_other b1 p rest ((h p).trans hb),
        seq_cons_other b2 p rest hb]

theorem mainRun_types_cpe (noConc : Bool) (body : Task → Outcome)
    (order : List Task) (h : body Task.build_types = Outcome.calledProcessError) :
    mainRun noConc body order =
      { submitted := Task.build_types :: wave1Children
        invoked := Task.build_types :: wave1Children
        awaited := [Task.build_types]
        exit := ExitRes.exitCode 1
        output := [] } := by
  unfold mainRun
  rw [h]

theorem mainRun_types_other (noConc : Bool) (body : Task → Outcome)
    (order : List Task) (h : body Task.build_types = Outcome.otherException) :
    mainRun noConc body order =
      { submitted := Task.build_types :: wave1Children
        invoked := Task.build_types :: wave1Children
        awaited := [Task.build_types]
        exit := ExitRes.uncaughtOther Task.build_types
        output := [] } := by
  unfold mainRun
  rw [h]

theorem mainRun_conc (body : Task → Outcome) (order : List Task)
    (h : body Task.build_types = Outcome.success) :
    mainRun false body order =
      { submitted := allTasks
        invoked := allTasks
        awaited := Task.build_types :: (collectLoop body order).1
        exit := (collectLoop body order).2
        output := [] } := by
  unfold mainRun
  rw [h]
  rfl

theorem mainRun_seq_some (body : Task → Outcome) (order : List Task)
    (ran : List Task) (e : ExitRes)
    (h : body Task.build_types = Outcome.success)
    (hs : runSequentialApis body pkgs = (ran, some e)) :
    mainRun true body order =
      { submitted := Task.build_types :: wave1Children
        invoked := (Task.build_types :: wave1Children) ++ ran
        awaited := [Task.build_types]
        exit := e
        output := [] } := by
  unfold mainRun
  rw [h]
  show (match runSequentialApis body pkgs with
    | (ran, some e) =>
      { submitted := Task.build_types :: wave1Children
        invoked := (Task.build_types :: wave1Children) ++ ran
        awaited := [Task.build_types]
        exit := e
        output := [] }
    | (ran, none) =>
      let c := collectLoop body order
      { submitted := Task.build_types :: wave1Children
        invoked := (Task.build_types :: wave1Children) ++ ran
        awaited := Task.build_types :: c.1
        exit := c.2
        output := [] } : RunResult) = _
  rw [hs]

theorem mainRun_seq_none (body : Task → Outcome) (order : List Task)
    (ran : List Task)
    (h : body Task.build_types = Outcome.success)
    (hs : runSequentialApis body pkgs = (ran, none)) :
    mainRun true body order =
      { submitted := Task.build_types :: wave1Children
        invoked := (Task.build_types :: wave1Children) ++ ran
        awaited := Task.build_types :: (collectLoop body order).1
        exit := (collectLoop body order).2
        output := [] } := by
  unfold mainRun
  rw [h]
  show (match runSequentialApis body pkgs with
    | (ran, some e) =>
      { submitted := Task.build_types :: wave1Children
        invoked := (Task.build_types :: wave1Children) ++ ran
        awaited := [Task.build_types]
        exit := e
        output := [] }
    | (ran, none) =>
      let c := collectLoop body order
      { submitted := Task.build_types :: wave1Children
        invoked := (Task.build_types :: wave1Children) ++ ran
        awaited := Task.build_types :: c.1
        exit := c.2
        output := [] } : RunResult) = _
  rw [hs]

theorem allTasks_nodup : allTasks.Nodup := by decide

theorem childrenList_nodup (noConc : Bool) : (childrenList noConc).Nodup := by
  cases noConc <;> decide

theorem types_not_mem_childrenList (noConc : Bool) :
    Task.build_types ∉ childrenList noConc := by
  cases noConc <;> decide

theorem api_not_mem_wave1 (p : Pkg) :
    Task.build_api_extractor p ∉ Task.build_types :: wave1Children := by
  simp [wave1Children]

theorem childrenList_false_eq : childrenList false = wave1Children ++ apiTasks :=
  rfl

theorem childrenList_true_eq : childrenList true = wave1Children := rfl

theorem allTasks_eq : allTasks = (Task.build_types :: wave1Children) ++ apiTasks :=
  rfl

theorem allTasks_eq_cons : allTasks = Task.build_types :: childrenList false := rfl

theorem forall_allTasks_iff (P : Task → Prop) :
    (∀ t ∈ allTasks, P t) ↔
      P Task.build_types ∧ (∀ t ∈ wave1Children, P t) ∧
        (∀ p ∈ pkgs, P (Task.build_api_extractor p)) := by
  rw [allTasks_eq, List.forall_mem_append, List.forall_mem_cons]
  constructor
  · rintro ⟨⟨h1, h2⟩, h3⟩
    exact ⟨h1, h2, List.forall_mem_map.mp h3⟩
  · rintro ⟨h1, h2, h3⟩
    exact ⟨⟨h1, h2⟩, List.forall_mem_map.mpr h3⟩

theorem mem_allTasks_of_mem_childrenList (noConc : Bool) (t : Task)
    (ht : t ∈ childrenList noConc) : t ∈ allTasks := by
  cases noConc with
  | false =>
    rw [childrenList_false_eq] at ht
    rw [allTasks_eq_cons, childrenList_false_eq]
    exact List.mem_cons_of_mem _ ht
  | true =>
    rw [childrenList_true_eq] at ht
    rw [allTasks_eq_cons, childrenList_false_eq]
    exact List.mem_cons_of_mem _ (List.mem_append.mpr (Or.inl ht))

/-- The exit status of `mainRun` is 0 exactly when every declared task body
succeeded, assuming no task body raises a non-`CalledProcessError` exception
and that `order` lists the futures actually handed to `as_completed`. -/
theorem status_zero_iff (noConc : Bool) (body : Task → Outcome)
    (order : List Task) (hperm : order.Perm (childrenList noConc))
    (hno : ∀ t, body t ≠ Outcome.otherException) :
    (mainRun noConc body order).exit.processStatus = 0 ↔
      ∀ t ∈ allTasks, body t = Outcome.success := by
  rw [forall_allTasks_iff]
  cases hb : body Task.build_types with
  | otherException => exact absurd hb (hno _)
  | calledProcessError =>
    rw [mainRun_types_cpe noConc body order hb]
    simp [ExitRes.processStatus, hb]
  | success =>
    cases noConc with
    | false =>
      rw [mainRun_conc body order hb]
      have hst := collectLoop_status body order (fun t _ => hno t)
      have h0 : (collectLoop body order).2.processStatus = 0 ↔
          (collectLoop body order).2 = ExitRes.exitCode 0 := by
        rcases hst with h | h <;> rw [h] <;> simp [ExitRes.processStatus]
      show (collectLoop body order).2.processStatus = 0 ↔ _
      rw [h0, collectLoop_exit0_iff]
      constructor
      · intro h
        refine ⟨rfl, fun t htm => h t ?_, fun p hp => h _ ?_⟩
        · exact hperm.mem_iff.mpr
            (by rw [childrenList_false_eq]; exact List.mem_append.mpr (Or.inl htm))
        · exact hperm.mem_iff.mpr
            (by rw [childrenList_false_eq]
                exact List.mem_append.mpr
                  (Or.inr (List.mem_map_of_mem _ hp)))
      · rintro ⟨_, hw, ha⟩ t htm
        have := hperm.mem_iff.mp htm
        rw [childrenList_false_eq] at this
        rcases List.mem_append.mp this with h | h
        · exact hw t h
        · rcases List.mem_map.mp h with ⟨p, hp, rfl⟩
          exact ha p hp
    | true =>
      rcases hsr : runSequentialApis body pkgs with ⟨ran, opt⟩
      cases opt with
      | some e =>
        rw [mainRun_seq_some body order ran e hb hsr]
        have hse := seq_some_not_exit body pkgs e (by rw [hsr])
        have hne : ¬ ∀ p ∈ pkgs, body (Task.build_api_extractor p) = Outcome.success := by
          intro hall
          have h2 := (seq_none_iff body pkgs).mpr hall
          rw [hsr] at h2
          simp at h2
        show e.processStatus = 0 ↔ _
        rw [hse.1]
        exact ⟨fun h => by simp at h, fun hc => absurd hc.2.2 hne⟩
      | none =>
        rw [mainRun_seq_none body order ran hb hsr]
        have hapi : ∀ p ∈ pkgs, body (Task.build_api_extractor p) = Outcome.success :=
          (seq_none_iff body pkgs).mp (by rw [hsr])
        have hst := collectLoop_status body order (fun t _ => hno t)
        have h0 : (collectLoop body order).2.processStatus = 0 ↔
            (collectLoop body order).2 = ExitRes.exitCode 0 := by
          rcases hst with h | h <;> rw [h] <;> simp [ExitRes.processStatus]
        show (collectLoop body order).2.processStatus = 0 ↔ _
        rw [h0, collectLoop_exit0_iff]
        constructor
        · intro h
          exact ⟨rfl, fun t htm => h t (hperm.mem_iff.mpr
            (by rw [childrenList_true_eq]; exact htm)), hapi⟩
        · rintro ⟨_, hw, _⟩ t htm
          have := hperm.mem_iff.mp htm
          rw [childrenList_true_eq] at this
          exact hw t this

/-- The exit status of `mainRun` is 0 or 1 when no task body raises a
non-`CalledProcessError` exception. -/
theorem status_zero_or_one (noConc : Bool) (body : Task → Outcome)
    (order : List Task) (hno : ∀ t, body t ≠ Outcome.otherException) :
    (mainRun noConc body order).exit.processStatus = 0 ∨
      (mainRun noConc body order).exit.processStatus = 1 := by
  cases hb : body Task.build_types with
  | otherException => exact absurd hb (hno _)
  | calledProcessError =>
    rw [mainRun_types_cpe noConc body order hb]
    right
    rfl
  | success =>
    cases noConc with
    | false =>
      rw [mainRun_conc body order hb]
      show (collectLoop body order).2.processStatus = 0 ∨
        (collectLoop body order).2.processStatus = 1
      rcases collectLoop_status body order (fun t _ => hno t) with h | h <;>
        rw [h]
      · left; rfl
      · right; rfl
    | true =>
      rcases hsr : runSequentialApis body pkgs with ⟨ran, opt⟩
      cases opt with
      | some e =>
        rw [mainRun_seq_some body order ran e hb hsr]
        right
        exact (seq_some_not_exit body pkgs e (by rw [hsr])).1
      | none =>
        rw [mainRun_seq_none body order ran hb hsr]
        show (collectLoop body order).2.processStatus = 0 ∨
          (collectLoop body order).2.processStatus = 1
        rcases collectLoop_status body order (fun t _ => hno t) with h | h <;>
          rw [h]
        · left; rfl
        · right; rfl

theorem invoked_sublist (noConc : Bool) (body : Task → Outcome)
    (order : List Task) :
    (mainRun noConc body order).invoked.Sublist allTasks := by
  cases hb : body Task.build_types with
  | calledProcessError =>
    rw [mainRun_types_cpe noConc body order hb, allTasks_eq]
    exact List.sublist_append_left _ _
  | otherException =>
    rw [mainRun_types_other noConc body order hb, allTasks_eq]
    exact List.sublist_append_left _ _
  | success =>
    cases noConc with
    | false =>
      rw [mainRun_conc body order hb]
    | true =>
      rcases hsr : runSequentialApis body pkgs with ⟨ran, opt⟩
      have hpref : ran.Sublist apiTasks := by
        have h := seq_fst_front body pkgs
        rw [hsr] at h
        exact h.sublist
      cases opt with
      | some e =>
        rw [mainRun_seq_some body order ran e hb hsr, allTasks_eq]
        exact hpref.append_left _
      | none =>
        rw [mainRun_seq_none body order ran hb hsr, allTasks_eq]
        exact hpref.append_left _

theorem submitted_sublist (noConc : Bool) (body : Task → Outcome)
    (order : List Task) :
    (mainRun noConc body order).submitted.Sublist allTasks := by
  cases hb : body Task.build_types with
  | calledProcessError =>
    rw [mainRun_types_cpe noConc body order hb, allTasks_eq]
    exact List.sublist_append_left _ _
  | otherException =>
    rw [mainRun_types_other noConc body order hb, allTasks_eq]
    exact List.sublist_append_left _ _
  | success =>
    cases noConc with
    | false =>
      rw [mainRun_conc body order hb]
    | true =>
      rcases hsr : runSequentialApis body pkgs with ⟨ran, opt⟩
      cases opt with
      | some e =>
        rw [mainRun_seq_some body order ran e hb hsr, allTasks_eq]
        exact List.sublist_append_left _ _
      | none =>
        rw [mainRun_seq_none body order ran hb hsr, allTasks_eq]
        exact List.sublist_append_left _ _

theorem awaited_nodup (noConc : Bool) (body : Task → Outcome)
    (order : List Task) (hperm : order.Perm (childrenList noConc)) :
    (mainRun noConc body order).awaited.Nodup := by
  have hnodup : order.Nodup := hperm.nodup_iff.mpr (childrenList_nodup noConc)
  have hbtnot : Task.build_types ∉ order :=
    fun h => types_not_mem_childrenList noConc (hperm.mem_iff.mp h)
  have hcoll : (collectLoop body order).1.Nodup :=
    ((collectLoop_fst_front body order).sublist).nodup hnodup
  have hbtc : Task.build_types ∉ (collectLoop body order).1 :=
    fun h => hbtnot ((collectLoop_fst_front body order).sublist.subset h)
  cases hb : body Task.build_types with
  | calledProcessError =>
    rw [mainRun_types_cpe noConc body order hb]
    exact List.nodup_cons.mpr ⟨by simp, List.nodup_nil⟩
  | otherException =>
    rw [mainRun_types_other noConc body order hb]
    exact List.nodup_cons.mpr ⟨by simp, List.nodup_nil⟩
  | success =>
    cases noConc with
    | false =>
      rw [mainRun_conc body order hb]
      exact List.nodup_cons.mpr ⟨hbtc, hcoll⟩
    | true =>
      rcases hsr : runSequentialApis body pkgs with ⟨ran, opt⟩
      cases opt with
      | some e =>
        rw [mainRun_seq_some body order ran e hb hsr]
        exact List.nodup_cons.mpr ⟨by simp, List.nodup_nil⟩
      | none =>
        rw [mainRun_seq_none body order ran hb hsr]
        exact List.nodup_cons.mpr ⟨hbtc, hcoll⟩

/-! The claims. -/

/-- Claim C1: for every run of the orchestrator (`main`), the process exit
status is 0 if and only if every declared task body succeeded, and 1
otherwise (restricted, as the claim's own framing is, to runs where task
bodies report failure via nonzero exit status, i.e. no body raises a
non-`CalledProcessError` exception). -/
theorem claim_C1 (noConc : Bool) (body : Task → Outcome) (order : List Task)
    (hperm : order.Perm (childrenList noConc))
    (hno : ∀ t, body t ≠ Outcome.otherException) :
    ((mainRun noConc body order).exit.processStatus = 0 ↔
      ∀ t ∈ allTasks, body t = Outcome.success)
    ∧ ((mainRun noConc body order).exit.processStatus = 0 ∨
       (mainRun noConc body order).exit.processStatus = 1) :=
  ⟨status_zero_iff noConc body order hperm hno,
   status_zero_or_one noConc body order hno⟩

theorem claim_C1_witness :
    (mainRun false allSuccessBody (childrenList false)).exit.processStatus = 0 :=
  (claim_C1 false allSuccessBody (childrenList false) (List.Perm.refl _)
    (fun t h => by simp [allSuccessBody] at h)).1.mpr (by decide)

/-- Claim C2: an api-extractor body is never invoked unless `build_types`'s
outcome is `success`; if `build_types` fails with `CalledProcessError`, no
api-extractor task is submitted, only the `build_types` future is ever
awaited, the run exits immediately via `sys.exit(1)`, and the orchestrator
prints nothing (no failure detail). -/
theorem claim_C2 (noConc : Bool) (body : Task → Outcome) (order : List Task) :
    (∀ p, Task.build_api_extractor p ∈ (mainRun noConc body order).invoked →
      body Task.build_types = Outcome.success)
    ∧ (body Task.build_types = Outcome.calledProcessError →
        (∀ p, Task.build_api_extractor p ∉ (mainRun noConc body order).submitted)
        ∧ (mainRun noConc body order).awaited = [Task.build_types]
        ∧ (mainRun noConc body order).exit = ExitRes.exitCode 1
        ∧ (mainRun noConc body order).output = []) := by
  cases hb : body Task.build_types with
  | success =>
    exact ⟨fun p _ => rfl, fun hc => Outcome.noConfusion hc⟩
  | calledProcessError =>
    rw [mainRun_types_cpe noConc body order hb]
    exact ⟨fun p hp => absurd hp (api_not_mem_wave1 p),
      fun _ => ⟨fun p => api_not_mem_wave1 p, rfl, rfl, rfl⟩⟩
  | otherException =>
    rw [mainRun_types_other noConc body order hb]
    exact ⟨fun p hp => absurd hp (api_not_mem_wave1 p),
      fun hc => Outcome.noConfusion hc⟩

theorem claim_C2_witness :
    Task.build_api_extractor Pkg.browser ∉
      (mainRun false typesFailBody (childrenList false)).submitted
    ∧ (mainRun false typesFailBody (childrenList false)).awaited =
        [Task.build_types]
    ∧ (mainRun false typesFailBody (childrenList false)).exit =
        ExitRes.exitCode 1
    ∧ (mainRun false typesFailBody (childrenList false)).output = [] := by
  have h := (claim_C2 false typesFailBody (childrenList false)).2 rfl
  exact ⟨h.1 Pkg.browser, h.2.1, h.2.2.1, h.2.2.2⟩

/-- Claim C3, counterexample: a fully successful run (every body succeeds,
concurrent mode) exits 0 with twelve submitted tasks but the orchestrator
prints no lines at all — `main` contains no print statement — contradicting
"prints one line per completed task … followed by one final total
elapsed-time line". -/
theorem claim_C3_cex :
    (mainRun false allSuccessBody (childrenList false)).exit = ExitRes.exitCode 0
    ∧ (mainRun false allSuccessBody (childrenList false)).submitted.length = 12
    ∧ (mainRun false allSuccessBody (childrenList false)).output = [] := by
  decide

/-- Claim C3, amended: on every run — successful or not, concurrent or
sequential — the orchestrator itself prints nothing: no per-task duration
lines and no total elapsed-time line exist in the code. -/
theorem claim_C3_amended (noConc : Bool) (body : Task → Outcome)
    (order : List Task) : (mainRun noConc body order).output = [] := by
  cases hb : body Task.build_types with
  | calledProcessError => rw [mainRun_types_cpe noConc body order hb]
  | otherException => rw [mainRun_types_other noConc body order hb]
  | success =>
    cases noConc with
    | false => rw [mainRun_conc body order hb]
    | true =>
      rcases hsr : runSequentialApis body pkgs with ⟨ran, opt⟩
      cases opt with
      | some e => rw [mainRun_seq_some body order ran e hb hsr]
      | none => rw [mainRun_seq_none body order ran hb hsr]

/-- Claim C4, counterexample: when `build_cjs` fails and its result arrives
first, `main` calls `sys.exit(1)` at once: only two futures are ever awaited
out of twelve submitted, and `build_esm`'s handle (among others) is never
awaited — contradicting "in all cases continues awaiting every remaining
handle". -/
theorem claim_C4_cex :
    (mainRun false cjsFailBody (childrenList false)).exit = ExitRes.exitCode 1
    ∧ (mainRun false cjsFailBody (childrenList false)).awaited =
        [Task.build_types, Task.build_cjs]
    ∧ (mainRun false cjsFailBody (childrenList false)).submitted.length = 12
    ∧ Task.build_esm ∈ (mainRun false cjsFailBody (childrenList false)).submitted
    ∧ Task.build_esm ∉ (mainRun false cjsFailBody (childrenList false)).awaited := by
  decide

/-- Claim C4, amended: when the first `Failure` (`CalledProcessError`)
arrives at the completion loop, `main` exits with status 1 immediately,
having awaited only the failing future and those before it; it does not
continue awaiting the remaining handles.  Outstanding work is still not
cancelled: every submitted body is invoked. -/
theorem claim_C4_amended (body : Task → Outcome) (pre post : List Task)
    (t : Task)
    (hbt : body Task.build_types = Outcome.success)
    (hpre : ∀ u ∈ pre, body u = Outcome.success)
    (ht : body t = Outcome.calledProcessError) :
    (mainRun false body (pre ++ t :: post)).exit = ExitRes.exitCode 1
    ∧ (mainRun false body (pre ++ t :: post)).awaited =
        Task.build_types :: (pre ++ [t])
    ∧ (mainRun false body (pre ++ t :: post)).invoked =
        (mainRun false body (pre ++ t :: post)).submitted := by
  rw [mainRun_conc body (pre ++ t :: post) hbt,
    collectLoop_append_first_cpe body pre post t hpre ht]
  exact ⟨rfl, rfl, rfl⟩

theorem claim_C4_amended_witness :
    (mainRun false cjsFailBody ([] ++ Task.build_cjs ::
        ([Task.build_esm, Task.build_browser_script_tag,
          Task.build_react_script_tag, Task.build_standalone_cli] ++
         apiTasks))).exit = ExitRes.exitCode 1
    ∧ (mainRun false cjsFailBody ([] ++ Task.build_cjs ::
        ([Task.build_esm, Task.build_browser_script_tag,
          Task.build_react_script_tag, Task.build_standalone_cli] ++
         apiTasks))).awaited = Task.build_types :: ([] ++ [Task.build_cjs])
    ∧ (mainRun false cjsFailBody ([] ++ Task.build_cjs ::
        ([Task.build_esm, Task.build_browser_script_tag,
          Task.build_react_script_tag, Task.build_standalone_cli] ++
         apiTasks))).invoked =
      (mainRun false cjsFailBody ([] ++ Task.build_cjs ::
        ([Task.build_esm, Task.build_browser_script_tag,
          Task.build_react_script_tag, Task.build_standalone_cli] ++
         apiTasks))).submitted :=
  claim_C4_amended cjsFailBody []
    ([Task.build_esm, Task.build_browser_script_tag,
      Task.build_react_script_tag, Task.build_standalone_cli] ++ apiTasks)
    Task.build_cjs rfl (by simp) rfl

/-- Claim C5: when `NO_CONCURRENT_CONVEX_NPM_BUILD` is set, no api-extractor
task is submitted to the pool; the six api-extractor bodies run one at a
time, directly and in registration order (browser, server, react, values,
react-auth0, react-clerk), after the pool-submitted tasks, and the run exits
0 when every task succeeds. -/
theorem claim_C5 (body : Task → Outcome) (order : List Task)
    (hperm : order.Perm (childrenList true))
    (hall : ∀ t ∈ allTasks, body t = Outcome.success) :
    (∀ p, Task.build_api_extractor p ∉ (mainRun true body order).submitted)
    ∧ (mainRun true body order).invoked =
        (Task.build_types :: wave1Children) ++ apiTasks
    ∧ (mainRun true body order).exit = ExitRes.exitCode 0 := by
  have hbt : body Task.build_types = Outcome.success :=
    hall _ (by rw [allTasks_eq]; simp)
  have hseq : runSequentialApis body pkgs = (apiTasks, none) :=
    seq_all_success body pkgs (fun p hp =>
      hall _ (by rw [allTasks_eq]
                 exact List.mem_append.mpr
                   (Or.inr (List.mem_map_of_mem _ hp))))
  rw [mainRun_seq_none body order apiTasks hbt hseq,
    collectLoop_all_success body order (fun t htm =>
      hall t (mem_allTasks_of_mem_childrenList true t (hperm.mem_iff.mp htm)))]
  exact ⟨fun p => api_not_mem_wave1 p, rfl, rfl⟩

theorem claim_C5_witness :
    Task.build_api_extractor Pkg.browser ∉
      (mainRun true allSuccessBody (childrenList true)).submitted
    ∧ (mainRun true allSuccessBody (childrenList true)).invoked =
        (Task.build_types :: wave1Children) ++ apiTasks
    ∧ (mainRun true allSuccessBody (childrenList true)).exit =
        ExitRes.exitCode 0 := by
  have h := claim_C5 allSuccessBody (childrenList true) (List.Perm.refl _)
    (by decide)
  exact ⟨h.1 Pkg.browser, h.2⟩

/-- Claim C6, counterexample: the single build profile in this source
declares 12 tasks but configures only `max_workers = 8`, so the task count is
NOT at most the pool's configured worker count (and no profile with 20
workers exists in this file). -/
theorem claim_C6_cex :
    allTasks.length = 12 ∧ max_workers = 8 ∧
      ¬ allTasks.length ≤ max_workers := by
  decide

/-- Claim C6, amended: the build profile in this source uses
`max_workers = 8` while `main` submits 12 tasks (in concurrent mode), so the
worker count is strictly smaller than the task count and not every submitted
task can run concurrently at once. -/
theorem claim_C6_amended :
    max_workers = 8 ∧ allTasks.length = 12 ∧ max_workers < allTasks.length
    ∧ (mainRun false allSuccessBody (childrenList false)).submitted.length
        = 12 := by
  decide

/-- Claim C7, counterexample: when `build_types` fails, `build_cjs` is
submitted exactly once but its result is never awaited (awaited 0 times, not
exactly once) — `main` exits before the `as_completed` loop runs. -/
theorem claim_C7_cex :
    List.count Task.build_cjs
      (mainRun false typesFailBody (childrenList false)).submitted = 1
    ∧ List.count Task.build_cjs
        (mainRun false typesFailBody (childrenList false)).awaited = 0 := by
  decide

/-- Claim C7, amended: each task's body is invoked at most once per
invocation, each task is submitted at most once, and each submitted task's
result is awaited at most once; on a run that exits 0 every submitted task's
result is awaited exactly once. -/
theorem claim_C7_amended (noConc : Bool) (body : Task → Outcome)
    (order : List Task) (hperm : order.Perm (childrenList noConc)) :
    (∀ t, List.count t (mainRun noConc body order).invoked ≤ 1)
    ∧ (∀ t, List.count t (mainRun noConc body order).submitted ≤ 1)
    ∧ (∀ t, List.count t (mainRun noConc body order).awaited ≤ 1)
    ∧ ((mainRun noConc body order).exit = ExitRes.exitCode 0 →
        ∀ t ∈ (mainRun noConc body order).submitted,
          List.count t (mainRun noConc body order).awaited = 1) := by
  refine ⟨List.nodup_iff_count_le_one.mp
      ((invoked_sublist noConc body order).nodup allTasks_nodup),
    List.nodup_iff_count_le_one.mp
      ((submitted_sublist noConc body order).nodup allTasks_nodup),
    List.nodup_iff_count_le_one.mp (awaited_nodup noConc body order hperm),
    ?_⟩
  intro hexit t htm
  cases hb : body Task.build_types with
  | calledProcessError =>
    rw [mainRun_types_cpe noConc body order hb] at hexit
    exact absurd hexit (by simp)
  | otherException =>
    rw [mainRun_types_other noConc body order hb] at hexit
    exact absurd hexit (by simp)
  | success =>
    cases noConc with
    | false =>
      rw [mainRun_conc body order hb] at hexit htm ⊢
      replace hexit : (collectLoop body order).2 = ExitRes.exitCode 0 := hexit
      replace htm : t ∈ allTasks := htm
      show List.count t (Task.build_types :: (collectLoop body order).1) = 1
      rw [collectLoop_exit0_fst body order hexit]
      have hpermA : (Task.build_types :: order).Perm allTasks := by
        rw [allTasks_eq_cons]
        exact hperm.cons _
      rw [hpermA.count_eq t]
      exact List.count_eq_one_of_mem allTasks_nodup htm
    | true =>
      rcases hsr : runSequentialApis body pkgs with ⟨ran, opt⟩
      cases opt with
      | some e =>
        rw [mainRun_seq_some body order ran e hb hsr] at hexit
        replace hexit : e = ExitRes.exitCode 0 := hexit
        exact absurd hexit ((seq_some_not_exit body pkgs e (by rw [hsr])).2 0)
      | none =>
        rw [mainRun_seq_none body order ran hb hsr] at hexit htm ⊢
        replace hexit : (collectLoop body order).2 = ExitRes.exitCode 0 := hexit
        replace htm : t ∈ Task.build_types :: wave1Children := htm
        show List.count t (Task.build_types :: (collectLoop body order).1) = 1
        rw [collectLoop_exit0_fst body order hexit]
        have hperm1 : order.Perm wave1Children := by
          rw [← childrenList_true_eq]
          exact hperm
        have hpermA : (Task.build_types :: order).Perm
            (Task.build_types :: wave1Children) := hperm1.cons _
        rw [hpermA.count_eq t]
        exact List.count_eq_one_of_mem (by decide) htm

theorem claim_C7_amended_witness :
    List.count Task.build_cjs
      (mainRun false allSuccessBody (childrenList false)).awaited = 1 := by
  have h := claim_C7_amended false allSuccessBody (childrenList false)
    (List.Perm.refl _)
  exact h.2.2.2 (by decide) Task.build_cjs (by decide)

/-- Claim C8: only `subprocess.CalledProcessError` is caught and converted
into the terse `sys.exit(1)` path (both at the `e1.result()` join and in the
`as_completed` loop); any other exception raised by a task body propagates
uncaught out of `main`, producing a traceback rather than the terse failure
signal. -/
theorem claim_C8 (body : Task → Outcome) (pre post : List Task) (t : Task) :
    (body Task.build_types = Outcome.calledProcessError →
      (mainRun false body (pre ++ t :: post)).exit = ExitRes.exitCode 1)
    ∧ (body Task.build_types = Outcome.otherException →
      (mainRun false body (pre ++ t :: post)).exit =
        ExitRes.uncaughtOther Task.build_types)
    ∧ (body Task.build_types = Outcome.success →
       (∀ u ∈ pre, body u = Outcome.success) →
      (body t = Outcome.calledProcessError →
        (mainRun false body (pre ++ t :: post)).exit = ExitRes.exitCode 1)
      ∧ (body t = Outcome.otherException →
        (mainRun false body (pre ++ t :: post)).exit =
          ExitRes.uncaughtOther t)) := by
  refine ⟨fun h => ?_, fun h => ?_, fun hs hpre => ⟨fun hc => ?_, fun ho => ?_⟩⟩
  · rw [mainRun_types_cpe false body _ h]
  · rw [mainRun_types_other false body _ h]
  · rw [mainRun_conc body _ hs,
      collectLoop_append_first_cpe body pre post t hpre hc]
  · rw [mainRun_conc body _ hs,
      collectLoop_append_first_other body pre post t hpre ho]

theorem claim_C8_witness :
    (mainRun false esmRaisesBody ([Task.build_cjs] ++ Task.build_esm ::
        ([Task.build_browser_script_tag, Task.build_react_script_tag,
          Task.build_standalone_cli] ++ apiTasks))).exit =
      ExitRes.uncaughtOther Task.build_esm :=
  ((claim_C8 esmRaisesBody [Task.build_cjs]
      ([Task.build_browser_script_tag, Task.build_react_script_tag,
        Task.build_standalone_cli] ++ apiTasks) Task.build_esm).2.2 rfl
    (by decide)).2 rfl

/-- Claim C9: in sequential-fallback mode, an api-extractor failure is not
caught anywhere: `build_api_extractor(pkg)` is called outside any try/except,
so the `CalledProcessError` propagates uncaught out of `main` (full stack
trace), bypassing the terse `sys.exit(1)` handling of the concurrent path. -/
theorem claim_C9 (body : Task → Outcome) (order : List Task) (p : Pkg)
    (pre post : List Pkg) (hpkgs : pkgs = pre ++ p :: post)
    (hbt : body Task.build_types = Outcome.success)
    (hpre : ∀ q ∈ pre, body (Task.build_api_extractor q) = Outcome.success)
    (hp : body (Task.build_api_extractor p) = Outcome.calledProcessError) :
    (mainRun true body order).exit =
      ExitRes.uncaughtCPE (Task.build_api_extractor p)
    ∧ ∀ n, (mainRun true body order).exit ≠ ExitRes.exitCode n := by
  have hsr : runSequentialApis body pkgs =
      (pre.map Task.build_api_extractor ++ [Task.build_api_extractor p],
       some (ExitRes.uncaughtCPE (Task.build_api_extractor p))) := by
    rw [hpkgs]
    exact seq_first_cpe body pre post p hpre hp
  rw [mainRun_seq_some body order _ _ hbt hsr]
  exact ⟨rfl, fun n h => ExitRes.noConfusion h⟩

theorem claim_C9_witness :
    (mainRun true apiBrowserFailBody (childrenList true)).exit =
      ExitRes.uncaughtCPE (Task.build_api_extractor Pkg.browser) :=
  (claim_C9 apiBrowserFailBody (childrenList true) Pkg.browser []
    [Pkg.server, Pkg.react, Pkg.values, Pkg.reactAuth0, Pkg.reactClerk]
    rfl rfl (by decide) rfl).1

/-- Claim C10: only `build_types` gates the api-extractor tasks — whether an
api-extractor task is submitted (or, in sequential mode, invoked) is
unchanged under any change to the outcomes of the other no-prerequisite
tasks (`build_cjs`, `build_esm`, `build_browser_script_tag`,
`build_react_script_tag`, `build_standalone_cli`) and of the arrival order:
it depends only on `build_types`'s outcome and the api bodies themselves. -/
theorem claim_C10 (noConc : Bool) (b1 b2 : Task → Outcome)
    (o1 o2 : List Task)
    (hbt : b1 Task.build_types = b2 Task.build_types)
    (hapi : ∀ p, b1 (Task.build_api_extractor p) =
      b2 (Task.build_api_extractor p)) :
    ∀ p, (Task.build_api_extractor p ∈ (mainRun noConc b1 o1).submitted ↔
            Task.build_api_extractor p ∈ (mainRun noConc b2 o2).submitted)
      ∧ (Task.build_api_extractor p ∈ (mainRun noConc b1 o1).invoked ↔
            Task.build_api_extractor p ∈ (mainRun noConc b2 o2).invoked) := by
  intro p
  cases hb : b2 Task.build_types with
  | calledProcessError =>
    rw [mainRun_types_cpe noConc b1 o1 (hbt.trans hb),
      mainRun_types_cpe noConc b2 o2 hb]
    exact ⟨Iff.rfl, Iff.rfl⟩
  | otherException =>
    rw [mainRun_types_other noConc b1 o1 (hbt.trans hb),
      mainRun_types_other noConc b2 o2 hb]
    exact ⟨Iff.rfl, Iff.rfl⟩
  | success =>
    cases noConc with
    | false =>
      rw [mainRun_conc b1 o1 (hbt.trans hb), mainRun_conc b2 o2 hb]
      exact ⟨Iff.rfl, Iff.rfl⟩
    | true =>
      have hseq := seq_congr b1 b2 hapi pkgs
      rcases hsr : runSequentialApis b2 pkgs with ⟨ran, opt⟩
      cases opt with
      | some e =>
        rw [mainRun_seq_some b1 o1 ran e (hbt.trans hb) (hseq.trans hsr),
          mainRun_seq_some b2 o2 ran e hb hsr]
        exact ⟨Iff.rfl, Iff.rfl⟩
      | none =>
        rw [mainRun_seq_none b1 o1 ran (hbt.trans hb) (hseq.trans hsr),
          mainRun_seq_none b2 o2 ran hb hsr]
        exact ⟨Iff.rfl, Iff.rfl⟩

theorem claim_C10_witness :
    (Task.build_api_extractor Pkg.browser ∈
        (mainRun false cjsFailBody (childrenList false)).submitted ↔
      Task.build_api_extractor Pkg.browser ∈
        (mainRun false allSuccessBody (childrenList false)).submitted)
    ∧ (Task.build_api_extractor Pkg.browser ∈
        (mainRun false cjsFailBody (childrenList false)).invoked ↔
      Task.build_api_extractor Pkg.browser ∈
        (mainRun false allSuccessBody (childrenList false)).invoked) :=
  claim_C10 false cjsFailBody allSuccessBody (childrenList false)
    (childrenList false) rfl (fun p => by cases p <;> rfl) Pkg.browser

end Build
